import Mathlib

/-!
Verification development for the supabase-memo path-resolution server
(`src/server/main.py`).

The relational backend is embedded as four in-memory tables (`DB`); a
supabase query `table(t).select(...).eq(col, v).execute()` is embedded as a
`List.filter` over the corresponding table, preserving table (insertion)
order, and `.limit(1)` / `data[0]` as `List.head?`.  Python `Optional[str]`
values are embedded as `Option String`; Python truthiness tests
(`if not item_id`) are embedded so that both `None` and the empty string
count as falsy.

Definitions named after the Python functions are translated from the
source.  Definitions in the `Spec` namespace are written from the
specification's words (they model the backend's remote procedures, whose
SQL bodies are not part of `src/`, and the storage-side binary encoding).
-/

namespace SupabaseMemo

/-- A row of the `segment` table. -/
structure Segment where
  id : String
  name : String
deriving DecidableEq

/-- A row of the `segment_relation` table: a directed typed edge.
`type` is 0 (direct child), 1 (indirect content), 2 (bind). -/
structure Relation where
  segment_1 : String
  segment_2 : String
  type : Int
deriving DecidableEq

/-- A row of the `content` table. -/
structure Content where
  id : String
  type_code : Int
  value : String
deriving DecidableEq

/-- A row of the `content_binary` table. -/
structure BinaryRow where
  id : String
  data : String
deriving DecidableEq

/-- The backend state: the four tables read by the engine, each kept in
table (insertion) order. -/
structure DB where
  segments : List Segment
  relations : List Relation
  contents : List Content
  binaries : List BinaryRow
deriving DecidableEq

/-- Python truthiness of an `Optional[str]`: `None` and `''` are falsy. -/
def pyFalsy : Option String → Bool
  | none => true
  | some s => s.isEmpty

/-- `is_content`: `select('id').eq('id', item_id)` returns at least one row. -/
def is_content (db : DB) (item_id : String) : Bool :=
  db.contents.any (fun c => c.id == item_id)

/-- `get_children_ids`: children of a parent id, or the root set
(all segment ids minus all targets of type-0 relations) when the parent is
the root sentinel `none`.  The Python set difference is embedded as a
filter in segment-table order. -/
def get_children_ids (db : DB) (parent_id : Option String) : List String :=
  match parent_id with
  | none =>
    let all_ids := db.segments.map (fun s => s.id)
    let child_ids := (db.relations.filter (fun r => r.type == 0)).map
      (fun r => r.segment_2)
    all_ids.filter (fun i => !(child_ids.contains i))
  | some pid =>
    ((db.relations.filter (fun r => r.type == 0)).filter
      (fun r => r.segment_1 == pid)).map (fun r => r.segment_2)

/-- The body of the child-matching loop in `resolve_path_to_id`: the first
child id whose `segment` row (first row with that id, if any) has `name`
equal to `seg_name`; children with no segment row are skipped. -/
def find_matching_child (db : DB) (seg_name : String)
    (child_ids : List String) : Option String :=
  child_ids.find? (fun cid =>
    match (db.segments.filter (fun s => s.id == cid)).head? with
    | some row => row.name == seg_name
    | none => false)

/-- The per-level walk of `resolve_path_to_id` (its `for seg_name` loop). -/
def resolve_go (db : DB) (current : Option String) :
    List String → Option String
  | [] => current
  | seg_name :: rest =>
    match find_matching_child db seg_name (get_children_ids db current) with
    | none => none
    | some cid => resolve_go db (some cid) rest

/-- `resolve_path_to_id`: walk the names from the root; `None` both for an
empty input (`if not segments: return None`) and for a failed lookup. -/
def resolve_path_to_id (db : DB) (segments : List String) : Option String :=
  if segments.isEmpty then none
  else resolve_go db none segments

/-- An element of the `items` list of a children listing. -/
structure Item where
  id : String
  name : String
  item_type : String
deriving DecidableEq

/-- Result of a children request: `code 0` with payload, or a negative
code with a message. -/
inductive ChildrenRes
  | ok (items : List Item) (segment_id : Option String)
  | fail (code : Int) (message : String)
deriving DecidableEq

/-- The `code` field of a children result. -/
def ChildrenRes.code : ChildrenRes → Int
  | .ok _ _ => 0
  | .fail c _ => c

/-- The `items` payload of a children result (`none` on failure). -/
def ChildrenRes.itemsPayload : ChildrenRes → Option (List Item)
  | .ok items _ => some items
  | .fail _ _ => none

/-- The item-building loop shared by both branches of
`get_children_multi_query`: ids with no `segment` row are skipped, the
others yield `{id, name, item_type}` with `item_type` decided by
`is_content`. -/
def list_items (db : DB) (ids : List String) : List Item :=
  ids.filterMap (fun item_id =>
    match (db.segments.filter (fun s => s.id == item_id)).head? with
    | some row =>
      some { id := row.id, name := row.name,
             item_type := if is_content db item_id then "content"
                          else "segment" }
    | none => none)

/-- `get_children_multi_query`: root listing for an empty path, otherwise
resolve the path and list the resolved segment's children. -/
def get_children_multi_query (db : DB) (segments : List String) :
    ChildrenRes :=
  if segments.isEmpty then
    .ok (list_items db (get_children_ids db none)) none
  else
    match resolve_path_to_id db segments with
    | none => .fail (-1) "Path does not exist"
    | some item_id =>
      if item_id.isEmpty then .fail (-1) "Path does not exist"
      else .ok (list_items db (get_children_ids db (some item_id)))
             (some item_id)

/-- One tier of the content search in `get_content_multi_query`: if the id
accumulated so far is falsy, scan this tier's relations and take the first
target that is a real content record, keeping the previous value when the
scan finds nothing. -/
def update_tier (db : DB) (prev : Option String) (rels : List Relation) :
    Option String :=
  if pyFalsy prev then
    match rels.find? (fun r => is_content db r.segment_2) with
    | some r => some r.segment_2
    | none => prev
  else prev

/-- The content search of `get_content_multi_query` (lines 207-240): the
resolved id itself if it is content, else bind (type 2, first row only)
then direct child (type 0) then indirect child (type 1). -/
def resolve_content_id (db : DB) (item_id : String) : Option String :=
  if is_content db item_id then some item_id
  else
    let bind_rels := (db.relations.filter (fun r => r.segment_1 == item_id)).filter
      (fun r => r.type == 2)
    let c2 : Option String :=
      match bind_rels.head? with
      | some rel =>
        if is_content db rel.segment_2 then some rel.segment_2 else none
      | none => none
    let direct_rels := (db.relations.filter (fun r => r.segment_1 == item_id)).filter
      (fun r => r.type == 0)
    let c0 := update_tier db c2 direct_rels
    let indirect_rels := (db.relations.filter (fun r => r.segment_1 == item_id)).filter
      (fun r => r.type == 1)
    update_tier db c0 indirect_rels

/-- Result of a content request: `code 0` with the materialized payload,
or a negative code with a message. -/
inductive ContentRes
  | ok (content : Content) (content_type : String) (value : String)
      (is_binary : Bool)
  | fail (code : Int) (message : String)
deriving DecidableEq

/-- The `code` field of a content result. -/
def ContentRes.code : ContentRes → Int
  | .ok _ _ _ _ => 0
  | .fail c _ => c

/-- The payload of a content result (`none` on failure). -/
def ContentRes.payload : ContentRes → Option (Content × String × String × Bool)
  | .ok c ct v b => some (c, ct, v, b)
  | .fail _ _ => none

/-- The binary `type_code → MIME` choice (lines 264-269). -/
def binary_content_type (type_code : Int) : String :=
  if type_code == 10 then "image/png"
  else if type_code == 21 then "application/pdf"
  else "application/octet-stream"

/-- The textual `type_code → MIME` map with default `text/plain`
(lines 282-289). -/
def content_type_of_code (type_code : Int) : String :=
  if type_code == 1 then "text/plain"
  else if type_code == 2 then "text/html"
  else if type_code == 3 then "text/markdown"
  else if type_code == 10 then "image/png"
  else if type_code == 21 then "application/pdf"
  else "text/plain"

/-- Materialization of a fetched content row (lines 252-291; duplicated
verbatim at lines 316-365 of the optimized strategy): dereference a
`binary:` indirection through `content_binary` (code -4 when the blob row
is missing), otherwise return the value with its mapped MIME type. -/
def materialize_content (db : DB) (content : Content) : ContentRes :=
  if content.value.startsWith "binary:" then
    let binary_id := content.value.drop 7
    match (db.binaries.filter (fun b => b.id == binary_id)).head? with
    | none => .fail (-4) ("Binary data not found for ID " ++ binary_id)
    | some binary_data =>
      .ok content (binary_content_type content.type_code) binary_data.data
        true
  else
    .ok content (content_type_of_code content.type_code) content.value false

/-- `get_content_multi_query`: resolve the path (code -1 when it does not
exist), find a content id through `resolve_content_id` (code -2 when every
tier fails), fetch the content row (code -3 when absent) and materialize. -/
def get_content_multi_query (db : DB) (segments : List String) : ContentRes :=
  match resolve_path_to_id db segments with
  | none => .fail (-1) "Path does not exist"
  | some item_id =>
    if item_id.isEmpty then .fail (-1) "Path does not exist"
    else
      let content_id? := resolve_content_id db item_id
      if pyFalsy content_id? then
        .fail (-2)
          "Content not found (no bound, direct, or indirect child content)"
      else
        match (db.contents.filter
            (fun c => c.id == content_id?.getD "")).head? with
        | none => .fail (-3) "Content not found"
        | some content => materialize_content db content

namespace Spec

/-- Modelled from the spec: §4.2's Children Enumerator `children_of`.  For
the root sentinel, the set difference between all segment ids and all
targets of type-0 relations; otherwise the targets of the type-0 relations
whose source is the parent.  The spec gives no ordering guarantee; the set
is modelled as a list in storage order. -/
def children_of (db : DB) (parent : Option String) : List String :=
  match parent with
  | none =>
    let targets := (db.relations.filter (fun r => r.type == 0)).map
      (fun r => r.segment_2)
    (db.segments.map (fun s => s.id)).filter (fun i => !(targets.contains i))
  | some p =>
    ((db.relations.filter (fun r => r.type == 0)).filter
      (fun r => r.segment_1 == p)).map (fun r => r.segment_2)

/-- Modelled from the spec: a node id identifies a Content record (§3's
"it always checks Content existence"). -/
def isContentRecord (db : DB) (node : String) : Bool :=
  db.contents.any (fun c => c.id == node)

/-- Modelled from the spec: one step of §4.3's Hierarchy Resolver — among
the children, the first whose display name compares exactly equal to the
looked-up name (a child with no segment row has no display name and
cannot match). -/
def find_child_by_name (db : DB) (name : String) (children : List String) :
    Option String :=
  children.find? (fun cid =>
    match db.segments.find? (fun s => s.id == cid) with
    | some seg => seg.name == name
    | none => false)

/-- Modelled from the spec: §4.3's Hierarchy Resolver walk starting from a
given node.  `some current` on success; `none` when some name has no
matching child. -/
def resolve_from (db : DB) (current : Option String) :
    List String → Option (Option String)
  | [] => some current
  | name :: rest =>
    match find_child_by_name db name (children_of db current) with
    | none => none
    | some cid => resolve_from db (some cid) rest

/-- Modelled from the spec: §4.3's `resolve` — an empty input sequence
resolves to the root sentinel (`some none`), distinct from not-found
(`none`). -/
def resolve (db : DB) (names : List String) : Option (Option String) :=
  resolve_from db none names

/-- Modelled from the spec: a tier of §4.4's Content Resolver that
iterates all relations of one type and takes the first target that is a
real Content record. -/
def first_content_target (db : DB) (rels : List Relation) : Option String :=
  match rels.find? (fun r => isContentRecord db r.segment_2) with
  | some r => some r.segment_2
  | none => none

/-- Modelled from the spec: §4.4's Content Resolver `resolve_content`.
A Content id short-circuits; otherwise the tiers in precedence order:
type 2 first (take the first relation only and verify its target is a real
Content record), then type 0, then type 1, each tier consulted only when
the previous one found no valid content. -/
def resolve_content (db : DB) (node : String) : Option String :=
  if isContentRecord db node then some node
  else
    let rels_of := fun (t : Int) =>
      (db.relations.filter (fun r => r.segment_1 == node)).filter
        (fun r => r.type == t)
    let tier2 : Option String :=
      match (rels_of 2).head? with
      | some rel =>
        if isContentRecord db rel.segment_2 then some rel.segment_2 else none
      | none => none
    match tier2 with
    | some c => some c
    | none =>
      match first_content_target db (rels_of 0) with
      | some c => some c
      | none => first_content_target db (rels_of 1)

/-- Modelled from the spec: the item listing produced by the backend's
`get_segment_children` remote procedure (whose SQL body is not under
`src/`): for each child of the parent, its segment row's id and name with
`item_type` telling content from segment (§4.2, §6). -/
def listing (db : DB) (parent : Option String) : List Item :=
  (children_of db parent).filterMap (fun cid =>
    match db.segments.find? (fun s => s.id == cid) with
    | some seg =>
      some { id := seg.id, name := seg.name,
             item_type := if isContentRecord db cid then "content"
                          else "segment" }
    | none => none)

/-- Modelled from the spec: the backend remote procedure
`get_segment_children` (missing from `src/`): resolve the path per §4.3
(the empty path denoting the root) and return the child listing; a
non-resolving path signals not-found by returning no data. -/
def get_segment_children_rpc (db : DB) (path_segments : List String) :
    Option (List Item) :=
  match resolve db path_segments with
  | some node => some (listing db node)
  | none => none

/-- Modelled from the spec: the backend remote procedure
`get_content_by_path` (missing from `src/`): resolve the path per §4.3 to
a node id, find its content per §4.4 and return that Content record;
no data when the path does not resolve to a node or no tier yields
content. -/
def get_content_by_path_rpc (db : DB) (path_segments : List String) :
    Option Content :=
  match resolve db path_segments with
  | some (some node) =>
    match resolve_content db node with
    | some cid => db.contents.find? (fun c => c.id == cid)
    | none => none
  | _ => none

end Spec

/-- `get_children_pg_function`: call the `get_segment_children` remote
procedure; rows become `code 0` items, no data becomes code -1.  (A
transport exception, code -5, is outside this deterministic model and is
covered by quantifying the coordinator over an arbitrary optimized
result.) -/
def get_children_pg_function (db : DB) (segments : List String) :
    ChildrenRes :=
  match Spec.get_segment_children_rpc db segments with
  | some rows => .ok rows none
  | none => .fail (-1) "No data returned"

/-- `get_content_pg_function`: call the `get_content_by_path` remote
procedure; a returned row goes through the same binary-indirection and
MIME materialization as the fallback (lines 316-365 duplicate lines
252-291), no rows become code -1. -/
def get_content_pg_function (db : DB) (segments : List String) : ContentRes :=
  match Spec.get_content_by_path_rpc db segments with
  | some content => materialize_content db content
  | none => .fail (-1) "Content not found"

/-- The listing arm of `handle_path` (lines 449-458): take the optimized
result (passed in, since the remote call may also fail for transport
reasons); a negative code triggers one re-execution through the
multi-query strategy. -/
def children_with_fallback (db : DB) (segments : List String)
    (pg_result : ChildrenRes) : ChildrenRes :=
  if pg_result.code < 0 then get_children_multi_query db segments
  else pg_result

/-- The content arm of `handle_path` (lines 476-485): same coordination
for content requests. -/
def content_with_fallback (db : DB) (segments : List String)
    (pg_result : ContentRes) : ContentRes :=
  if pg_result.code < 0 then get_content_multi_query db segments
  else pg_result

/-- The outcome of one remote-procedure invocation as seen by the client
wrapper: rows (`data is not None`), no data (`data is None`), or a raised
exception with its message. -/
inductive RpcOutcome (α : Type)
  | rows (data : α)
  | noData
  | exn (message : String)
deriving DecidableEq

/-- Result of `fetch_tree`. -/
inductive TreeRes (α : Type)
  | ok (data : α) (message : String)
  | fail (code : Int) (message : String)
deriving DecidableEq

/-- The `code` of a tree result. -/
def TreeRes.code {α : Type} : TreeRes α → Int
  | .ok _ _ => 0
  | .fail c _ => c

/-- `fetch_tree` (lines 370-392): a single `get_segment_tree` remote call;
rows succeed, no data is code -1, an exception is code -5.  The tree data
itself is opaque to the engine and kept as a type parameter. -/
def fetch_tree {α : Type} (outcome : RpcOutcome α) : TreeRes α :=
  match outcome with
  | .rows d => .ok d "Tree fetched successfully"
  | .noData => .fail (-1) "Failed to fetch tree"
  | .exn message => .fail (-5) message

/-- The HTTP-boundary outcome of a tree-fetch request. -/
inductive TreeHttp (α : Type)
  | failure (code : Int) (message : String) (status : Nat)
  | success (segment_id : String) (tree : α)
deriving DecidableEq

/-- The tree branch of `handle_path` (lines 418-446): reject the root,
resolve the path, call `fetch_tree` once, and surface any negative code
directly (there is no multi-query fallback for trees). -/
def handle_tree_request {α : Type} (db : DB) (segments : List String)
    (outcome : RpcOutcome α) : TreeHttp α :=
  if segments.isEmpty then .failure (-1) "Cannot fetch tree for root" 400
  else
    match resolve_path_to_id db segments with
    | none => .failure (-1) "Segment not found" 404
    | some segment_id =>
      if segment_id.isEmpty then .failure (-1) "Segment not found" 404
      else
        match fetch_tree outcome with
        | .fail c m => .failure c m 500
        | .ok d _ => .success segment_id d

/-! ### Binary decode pipeline (lines 493-504)

Bytes are embedded as `Nat` values below 256 and text characters by their
code points, so the library calls `bytes.fromhex`, `bytes.decode('utf-8')`
and `base64.b64decode` are embedded as executable functions on `List Nat`.
-/

/-- Value of one hex digit character (by code point), accepting both
cases, as `bytes.fromhex` does. -/
def hexDigitVal (c : Nat) : Option Nat :=
  if 48 ≤ c ∧ c ≤ 57 then some (c - 48)
  else if 97 ≤ c ∧ c ≤ 102 then some (c - 97 + 10)
  else if 65 ≤ c ∧ c ≤ 70 then some (c - 65 + 10)
  else none

/-- `bytes.fromhex`: consume hex digits two at a time; an odd length or a
non-hex character raises (embedded as `none`). -/
def bytes_fromhex : List Nat → Option (List Nat)
  | [] => some []
  | c1 :: c2 :: rest =>
    match hexDigitVal c1, hexDigitVal c2 with
    | some h, some l => (bytes_fromhex rest).map (fun bs => (16 * h + l) :: bs)
    | _, _ => none
  | _ :: [] => none

/-- The hex digit character (code point) of a value below 16, lowercase as
produced by the backend's BYTEA output. -/
def hexDigitChar (v : Nat) : Nat :=
  if v < 10 then 48 + v else 97 + (v - 10)

/-- Hex encoding of a byte string, two lowercase digits per byte (the
backend's BYTEA text output, after its `\x` prefix). -/
def bytes_tohex : List Nat → List Nat
  | [] => []
  | b :: rest => hexDigitChar (b / 16) :: hexDigitChar (b % 16) :: bytes_tohex rest

/-- Decoding of one multi-byte UTF-8 sequence whose lead byte `b` is at
least 0x80: the code point and the count of continuation bytes consumed,
or `none` on a malformed, truncated, overlong, surrogate or out-of-range
sequence.  Not recursive. -/
def utf8_multi (b : Nat) (bs : List Nat) : Option (Nat × Nat) :=
  if b < 0xC2 then none
  else if b < 0xE0 then
    match bs with
    | b1 :: _ =>
      if 0x80 ≤ b1 ∧ b1 < 0xC0 then
        some ((b - 0xC0) * 0x40 + (b1 - 0x80), 1)
      else none
    | [] => none
  else if b < 0xF0 then
    match bs with
    | b1 :: b2 :: _ =>
      if (0x80 ≤ b1 ∧ b1 < 0xC0) ∧ (0x80 ≤ b2 ∧ b2 < 0xC0) then
        let cp := (b - 0xE0) * 0x1000 + (b1 - 0x80) * 0x40 + (b2 - 0x80)
        if cp < 0x800 ∨ (0xD800 ≤ cp ∧ cp < 0xE000) then none
        else some (cp, 2)
      else none
    | _ => none
  else if b < 0xF5 then
    match bs with
    | b1 :: b2 :: b3 :: _ =>
      if (0x80 ≤ b1 ∧ b1 < 0xC0) ∧ (0x80 ≤ b2 ∧ b2 < 0xC0) ∧
          (0x80 ≤ b3 ∧ b3 < 0xC0) then
        let cp := (b - 0xF0) * 0x40000 + (b1 - 0x80) * 0x1000 +
          (b2 - 0x80) * 0x40 + (b3 - 0x80)
        if cp < 0x10000 ∨ 0x10FFFF < cp then none
        else some (cp, 3)
      else none
    | _ => none
  else none

/-- `bytes.decode('utf-8')`: decode a byte list to the list of code points
of the resulting string; `none` embeds `UnicodeDecodeError` (truncated or
malformed sequences, overlong encodings, surrogates, values beyond
U+10FFFF). -/
def utf8_decode : List Nat → Option (List Nat)
  | [] => some []
  | b :: bs =>
    if b < 0x80 then (utf8_decode bs).map (fun cs => b :: cs)
    else
      match utf8_multi b bs with
      | some (cp, k) => (utf8_decode (bs.drop k)).map (fun cs => cp :: cs)
      | none => none
termination_by l => l.length
decreasing_by all_goals simp_wf <;> omega

/-- The base64 alphabet character (code point) of a sextet value. -/
def b64char (v : Nat) : Nat :=
  if v < 26 then 65 + v
  else if v < 52 then 97 + (v - 26)
  else if v < 62 then 48 + (v - 52)
  else if v = 62 then 43
  else 47

/-- The sextet value of a base64 alphabet character (code point). -/
def b64val (c : Nat) : Option Nat :=
  if 65 ≤ c ∧ c ≤ 90 then some (c - 65)
  else if 97 ≤ c ∧ c ≤ 122 then some (c - 97 + 26)
  else if 48 ≤ c ∧ c ≤ 57 then some (c - 48 + 52)
  else if c = 43 then some 62
  else if c = 47 then some 63
  else none

/-- Standard base64 encoding (`base64.b64encode`) of a byte string, as a
list of character code points; 61 is `'='` padding. -/
def b64encode : List Nat → List Nat
  | [] => []
  | b0 :: [] => [b64char (b0 / 4), b64char (b0 % 4 * 16), 61, 61]
  | b0 :: b1 :: [] =>
    [b64char (b0 / 4), b64char (b0 % 4 * 16 + b1 / 16),
     b64char (b1 % 16 * 4), 61]
  | b0 :: b1 :: b2 :: rest =>
    b64char (b0 / 4) :: b64char (b0 % 4 * 16 + b1 / 16) ::
    b64char (b1 % 16 * 4 + b2 / 64) :: b64char (b2 % 64) :: b64encode rest

/-- Standard base64 decoding (`base64.b64decode`) of a list of character
code points: groups of four, with `'='` padding allowed only at the end. -/
def b64decode : List Nat → Option (List Nat)
  | [] => some []
  | c0 :: c1 :: c2 :: c3 :: rest =>
    match b64val c0, b64val c1 with
    | some v0, some v1 =>
      if c2 = 61 ∧ c3 = 61 ∧ rest = [] then some [v0 * 4 + v1 / 16]
      else
        match b64val c2 with
        | some v2 =>
          if c3 = 61 ∧ rest = [] then
            some [v0 * 4 + v1 / 16, v1 % 16 * 16 + v2 / 4]
          else
            match b64val c3 with
            | some v3 =>
              (b64decode rest).map (fun bs =>
                (v0 * 4 + v1 / 16) :: (v1 % 16 * 16 + v2 / 4) ::
                (v2 % 4 * 64 + v3) :: bs)
            | none => none
        | none => none
    | _, _ => none
  | _ => none

/-- The outcome of the binary branch of `handle_path`: decoded raw bytes,
the stored value passed through untouched (no `\x` prefix), or a raised
decoding error (caught by the outer handler as a 500). -/
inductive BinaryResponse
  | decoded (bytes : List Nat)
  | raw (value : String)
  | error
deriving DecidableEq

/-- The binary branch of `handle_path` (lines 493-504): when the stored
value starts with `\x` (Python `'\\x'`, two characters), strip the prefix,
hex-decode, interpret the bytes as UTF-8 text and base64-decode that text
— hex first, base64 second.  `value.startswith`/`value[2:]` are embedded
as a match on the character list. -/
def decode_binary_value (value : String) : BinaryResponse :=
  match value.data with
  | '\\' :: 'x' :: hex_chars =>
    match bytes_fromhex (hex_chars.map Char.toNat) with
    | none => .error
    | some bs =>
      match utf8_decode bs with
      | none => .error
      | some base64_cps =>
        match b64decode base64_cps with
        | none => .error
        | some byte_data => .decoded byte_data
  | _ => .raw value

/-- Modelled from the spec: the storage-side transform, which is not under
`src/` (the client encodes raw bytes to base64 text and the backend stores
that text hex-encoded with a `\x` prefix in its BYTEA output) — §4.6's
"raw bytes → base64 text → stored as hex". -/
def encode_binary_for_storage (bytes : List Nat) : String :=
  String.mk ('\\' :: 'x' :: (bytes_tohex (b64encode bytes)).map Char.ofNat)

/-! ### Well-formedness of a fixture

Row ids in real fixtures are non-empty strings (UUIDs); the empty string
would be conflated with `None` by Python truthiness tests. -/

/-- Every segment id and content id of the fixture is a non-empty string. -/
def WellFormed (db : DB) : Prop :=
  (∀ s ∈ db.segments, s.id ≠ "") ∧ (∀ c ∈ db.contents, c.id ≠ "")

instance (db : DB) : Decidable (WellFormed db) := by
  unfold WellFormed; infer_instance

/-! ### Concrete fixtures used by witnesses -/

/-- The spec §8 scenario fixture: root segment `docs`, child `guide`
bound (type 2) to markdown content `# Hello`. -/
def dbScenario : DB :=
  { segments := [{ id := "s1", name := "docs" }, { id := "s2", name := "guide" }]
    relations := [{ segment_1 := "s1", segment_2 := "s2", type := 0 },
                  { segment_1 := "s2", segment_2 := "c1", type := 2 }]
    contents := [{ id := "c1", type_code := 3, value := "# Hello" }]
    binaries := [] }

/-- A fixture with one root segment and no content at all. -/
def dbBare : DB :=
  { segments := [{ id := "s1", name := "docs" }]
    relations := []
    contents := []
    binaries := [] }

/-- A fixture for the precedence scenario: one segment with a type-1
relation to content `a1` and a type-2 relation to content `b1`. -/
def dbPrecedence : DB :=
  { segments := [{ id := "s1", name := "seg" }]
    relations := [{ segment_1 := "s1", segment_2 := "a1", type := 1 },
                  { segment_1 := "s1", segment_2 := "b1", type := 2 }]
    contents := [{ id := "a1", type_code := 1, value := "A" },
                 { id := "b1", type_code := 1, value := "B" }]
    binaries := [] }

/-! ### Enumeration-order model for resolution determinism (C9)

In Python the root child set is built as a `set` and iterated in an
unspecified order; the resolver walk is therefore modelled with an
explicit `reorder` parameter standing for the iteration order imposed on
each level's child enumeration, constrained to be a permutation. -/

/-- The walk of `resolve_path_to_id` with an explicit enumeration order
imposed on each level's children. -/
def resolve_go_ordered (db : DB)
    (reorder : Option String → List String → List String)
    (current : Option String) : List String → Option String
  | [] => current
  | seg_name :: rest =>
    match find_matching_child db seg_name
        (reorder current (get_children_ids db current)) with
    | none => none
    | some cid => resolve_go_ordered db reorder (some cid) rest

/-- `resolve_path_to_id` with an explicit enumeration order. -/
def resolve_path_ordered (db : DB)
    (reorder : Option String → List String → List String)
    (segments : List String) : Option String :=
  if segments.isEmpty then none
  else resolve_go_ordered db reorder none segments

/-- The display name carried by a child id's segment row (first row with
that id), if any. -/
def rowName (db : DB) (cid : String) : Option String :=
  ((db.segments.filter (fun s => s.id == cid)).head?).map (fun s => s.name)

/-- Among the children of `p`, ids that carry a display name carry
pairwise distinct ones (the spec's "names are unique only among
siblings"). -/
def unique_at (db : DB) (p : Option String) : Prop :=
  ∀ x ∈ get_children_ids db p, ∀ y ∈ get_children_ids db p,
    rowName db x ≠ none → rowName db x = rowName db y → x = y

/-- Sibling-name uniqueness at the root and below every segment (the only
parents the resolver ever enumerates). -/
def sibling_names_unique (db : DB) : Prop :=
  unique_at db none ∧ ∀ s ∈ db.segments, unique_at db (some s.id)

instance (db : DB) (p : Option String) : Decidable (unique_at db p) := by
  unfold unique_at; infer_instance

instance (db : DB) : Decidable (sibling_names_unique db) := by
  unfold sibling_names_unique; infer_instance

/-! ### Helper lemmas -/

/-- `data[0]` of an `eq`-filtered query is the first row satisfying the
predicate. -/
theorem head?_filter_eq_find? {α : Type} (p : α → Bool) (l : List α) :
    (l.filter p).head? = l.find? p := by
  induction l with
  | nil => rfl
  | cons a l ih =>
    by_cases h : p a
    · simp [List.filter_cons, h]
    · simp [List.filter_cons, h, ih]

/-- The source's children enumeration coincides with the spec's Children
Enumerator. -/
theorem children_of_eq_get_children_ids (db : DB) (parent : Option String) :
    Spec.children_of db parent = get_children_ids db parent := by
  cases parent <;> rfl

/-- The source's content-table membership check coincides with the spec's. -/
theorem isContentRecord_eq_is_content (db : DB) (node : String) :
    Spec.isContentRecord db node = is_content db node := rfl

/-- The source's child-by-name matching loop coincides with the spec's. -/
theorem find_matching_child_eq_spec (db : DB) (name : String)
    (children : List String) :
    find_matching_child db name children =
      Spec.find_child_by_name db name children := by
  simp only [find_matching_child, Spec.find_child_by_name,
    head?_filter_eq_find?]

/-- The spec's listing of a parent's children coincides with the source's
item-building loop over the same children. -/
theorem spec_listing_eq_list_items (db : DB) (parent : Option String) :
    Spec.listing db parent = list_items db (get_children_ids db parent) := by
  simp only [Spec.listing, list_items, head?_filter_eq_find?,
    children_of_eq_get_children_ids, isContentRecord_eq_is_content]

/-! ### Claims -/

/-- C4: the children of the root sentinel are exactly the segment ids that
are not the target of any type-0 relation; appending a segment whose id is
not such a target appends exactly that segment's id to the root set,
keeping every existing root member. -/
theorem C4_root_computation (db : DB) (s : Segment)
    (h : s.id ∉ (db.relations.filter (fun r => r.type == 0)).map
      (fun r => r.segment_2)) :
    (∀ x, x ∈ get_children_ids db none ↔
      x ∈ db.segments.map (fun seg => seg.id) ∧
        x ∉ (db.relations.filter (fun r => r.type == 0)).map
          (fun r => r.segment_2))
    ∧ get_children_ids { db with segments := db.segments ++ [s] } none =
        get_children_ids db none ++ [s.id] := by
  constructor
  · intro x
    simp [get_children_ids, List.mem_filter]
  · simp [get_children_ids, List.filter_append, h]

/-- Witness for C4 on the scenario fixture: a fresh parentless segment
joins the root set, after the existing root member. -/
theorem C4_root_computation_witness :
    get_children_ids
      { dbScenario with
        segments := dbScenario.segments ++ [{ id := "s9", name := "new" }] }
      none = get_children_ids dbScenario none ++ ["s9"] :=
  (C4_root_computation dbScenario { id := "s9", name := "new" }
    (by decide)).2

/-- C5 counterexample: on a concrete fixture the resolver applied to the
empty sequence returns the very same value as on an unresolvable path —
`none`, the not-found result — so the empty-path result is not distinct
from not-found. -/
theorem C5_counterexample :
    resolve_path_to_id dbBare [] = resolve_path_to_id dbBare ["missing"] ∧
      resolve_path_to_id dbBare [] = none := by
  constructor <;> rfl

/-- C5 (amended): `resolve_path_to_id` applied to the empty sequence
returns `none` — the same value that stands for the root sentinel in
`get_children_ids` and for the resolver's not-found result; the two are
not distinct. -/
theorem C5_empty_path_returns_none (db : DB) :
    resolve_path_to_id db [] = none := by
  simp [resolve_path_to_id]

/-- C6: for both listing and content requests the coordinator returns the
optimized result unchanged when its code is non-negative; on a negative
code it re-executes through the multi-query strategy, so the code (and
message) surfaced to the caller on a double failure are the fallback's. -/
theorem C6_fallback_coordination (db : DB) (segments : List String)
    (pgL : ChildrenRes) (pgC : ContentRes) :
    (0 ≤ pgL.code → children_with_fallback db segments pgL = pgL)
    ∧ (pgL.code < 0 → children_with_fallback db segments pgL =
        get_children_multi_query db segments)
    ∧ (pgL.code < 0 → (children_with_fallback db segments pgL).code =
        (get_children_multi_query db segments).code)
    ∧ (0 ≤ pgC.code → content_with_fallback db segments pgC = pgC)
    ∧ (pgC.code < 0 → content_with_fallback db segments pgC =
        get_content_multi_query db segments)
    ∧ (pgC.code < 0 → (content_with_fallback db segments pgC).code =
        (get_content_multi_query db segments).code) := by
  refine ⟨fun h => ?_, fun h => ?_, fun h => ?_, fun h => ?_, fun h => ?_,
    fun h => ?_⟩ <;>
    simp [children_with_fallback, content_with_fallback, h, not_lt.mpr]

/-- Witness for C6: a transport failure (code -5) of the optimized
strategy is recovered through the multi-query strategy, and a successful
optimized listing is returned unchanged. -/
theorem C6_fallback_coordination_witness :
    children_with_fallback dbBare ["missing"] (ChildrenRes.fail (-5) "boom")
        = get_children_multi_query dbBare ["missing"]
    ∧ content_with_fallback dbBare ["missing"] (ContentRes.fail (-5) "boom")
        = get_content_multi_query dbBare ["missing"]
    ∧ children_with_fallback dbBare [] (ChildrenRes.ok [] none)
        = ChildrenRes.ok [] none :=
  ⟨(C6_fallback_coordination dbBare ["missing"]
      (ChildrenRes.fail (-5) "boom") (ContentRes.fail (-5) "boom")).2.1
      (by decide),
   (C6_fallback_coordination dbBare ["missing"]
      (ChildrenRes.fail (-5) "boom") (ContentRes.fail (-5) "boom")).2.2.2.2.1
      (by decide),
   (C6_fallback_coordination dbBare [] (ChildrenRes.ok [] none)
      (ContentRes.fail (-5) "boom")).1 (by decide)⟩

/-- C7: a content request whose first name matches no root child fails
with the path-not-found code -1, while a path that resolves to a segment
under which no tier yields content fails with the distinct
content-not-found code -2. -/
theorem C7_error_code_distinction (db : DB) (first : String)
    (rest : List String)
    (h1 : find_matching_child db first (get_children_ids db none) = none)
    (segs2 : List String) (item_id : String)
    (h2 : resolve_path_to_id db segs2 = some item_id)
    (h3 : item_id.isEmpty = false)
    (h4 : pyFalsy (resolve_content_id db item_id) = true) :
    get_content_multi_query db (first :: rest) =
      ContentRes.fail (-1) "Path does not exist"
    ∧ get_content_multi_query db segs2 =
      ContentRes.fail (-2)
        "Content not found (no bound, direct, or indirect child content)"
    ∧ (get_content_multi_query db (first :: rest)).code ≠
        (get_content_multi_query db segs2).code := by
  have p1 : get_content_multi_query db (first :: rest) =
      ContentRes.fail (-1) "Path does not exist" := by
    simp [get_content_multi_query, resolve_path_to_id, resolve_go, h1]
  have p2 : get_content_multi_query db segs2 =
      ContentRes.fail (-2)
        "Content not found (no bound, direct, or indirect child content)" := by
    simp [get_content_multi_query, h2, h3, h4]
  exact ⟨p1, p2, by rw [p1, p2]; decide⟩

/-- Witness for C7 on the bare fixture: `/missing/x` yields -1, `/docs`
(which resolves but has no content anywhere) yields -2. -/
theorem C7_error_code_distinction_witness :
    get_content_multi_query dbBare ["missing", "x"] =
      ContentRes.fail (-1) "Path does not exist"
    ∧ get_content_multi_query dbBare ["docs"] =
      ContentRes.fail (-2)
        "Content not found (no bound, direct, or indirect child content)" :=
  ⟨(C7_error_code_distinction dbBare "missing" ["x"] (by decide)
      ["docs"] "s1" (by decide) (by decide) (by decide)).1,
   (C7_error_code_distinction dbBare "missing" ["x"] (by decide)
      ["docs"] "s1" (by decide) (by decide) (by decide)).2.1⟩

/-- C8: `fetch_tree` is a single delegation to the `get_segment_tree`
remote procedure — rows succeed, no data is code -1, an exception is code
-5 — and any negative code is surfaced by the tree handler exactly as
produced, with no multi-query re-execution. -/
theorem C8_tree_no_fallback {α : Type} (db : DB) (segments : List String)
    (sid : String) (outcome : RpcOutcome α)
    (hne : segments.isEmpty = false)
    (hres : resolve_path_to_id db segments = some sid)
    (hsid : sid.isEmpty = false) :
    (∀ c m, fetch_tree outcome = TreeRes.fail c m →
      c < 0 ∧ handle_tree_request db segments outcome =
        TreeHttp.failure c m 500)
    ∧ (∀ d, outcome = RpcOutcome.rows d →
        handle_tree_request db segments outcome = TreeHttp.success sid d) := by
  constructor
  · intro c m hfail
    cases outcome with
    | rows d => simp [fetch_tree] at hfail
    | noData =>
      simp [fetch_tree] at hfail
      obtain ⟨hc, hm⟩ := hfail
      subst hc; subst hm
      refine ⟨by decide, ?_⟩
      simp [handle_tree_request, hne, hres, hsid, fetch_tree]
    | exn msg =>
      simp [fetch_tree] at hfail
      obtain ⟨hc, hm⟩ := hfail
      subst hc; subst hm
      refine ⟨by decide, ?_⟩
      simp [handle_tree_request, hne, hres, hsid, fetch_tree]
  · intro d hd
    subst hd
    simp [handle_tree_request, hne, hres, hsid, fetch_tree]

/-- Witness for C8 on the bare fixture: a no-data remote outcome surfaces
code -1 directly, and a rows outcome succeeds. -/
theorem C8_tree_no_fallback_witness :
    handle_tree_request dbBare ["docs"] (RpcOutcome.noData (α := Nat)) =
      TreeHttp.failure (-1) "Failed to fetch tree" 500
    ∧ handle_tree_request dbBare ["docs"] (RpcOutcome.rows 7) =
      TreeHttp.success "s1" 7 :=
  ⟨((C8_tree_no_fallback dbBare ["docs"] "s1" (RpcOutcome.noData (α := Nat))
      (by decide) (by decide) (by decide)).1 (-1) "Failed to fetch tree"
      rfl).2,
   (C8_tree_no_fallback dbBare ["docs"] "s1" (RpcOutcome.rows 7)
      (by decide) (by decide) (by decide)).2 7 rfl⟩

/-- C2: a segment with a type-1 relation to content A and a type-2
relation to content B resolves to B and never to A, whichever order the
two relations were inserted in. -/
theorem C2_bind_precedence (db : DB) (s A B : String)
    (hs : is_content db s = false) (hB : is_content db B = true)
    (hBne : B ≠ "") (hAB : A ≠ B)
    (horder :
      db.relations = [{ segment_1 := s, segment_2 := A, type := 1 },
                      { segment_1 := s, segment_2 := B, type := 2 }] ∨
      db.relations = [{ segment_1 := s, segment_2 := B, type := 2 },
                      { segment_1 := s, segment_2 := A, type := 1 }]) :
    resolve_content_id db s = some B ∧ resolve_content_id db s ≠ some A := by
  have hBempty : B.isEmpty = false := by
    cases hBe : B.isEmpty
    · rfl
    · exact absurd ((String.isEmpty_iff B).mp hBe) hBne
  have main : resolve_content_id db s = some B := by
    rcases horder with h | h <;>
      simp [resolve_content_id, hs, h, List.filter_cons, hB, update_tier,
        pyFalsy, hBempty]
  refine ⟨main, ?_⟩
  rw [main]
  simp [Ne.symm hAB]

/-- Witness for C2 on the precedence fixture (relations inserted with the
type-1 edge first): resolution picks the type-2 target `b1`. -/
theorem C2_bind_precedence_witness :
    resolve_content_id dbPrecedence "s1" = some "b1" ∧
      resolve_content_id dbPrecedence "s1" ≠ some "a1" :=
  C2_bind_precedence dbPrecedence "s1" "a1" "b1" (by decide) (by decide)
    (by decide) (by decide) (Or.inl rfl)

/-- Every item produced by the item-building loop carries the id and name
of a real segment row. -/
theorem list_items_sound (db : DB) (ids : List String) :
    ∀ it ∈ list_items db ids,
      ∃ s ∈ db.segments, s.id = it.id ∧ s.name = it.name := by
  intro it hit
  simp only [list_items, List.mem_filterMap] at hit
  obtain ⟨item_id, _, hmk⟩ := hit
  rcases hhead : (db.segments.filter (fun s => s.id == item_id)).head? with
    _ | row
  · rw [hhead] at hmk; cases hmk
  · rw [hhead] at hmk
    have hrow : row ∈ db.segments.filter (fun s => s.id == item_id) := by
      rcases List.head?_eq_some_iff.mp hhead with ⟨ys, hys⟩
      rw [hys]; exact List.mem_cons_self _ _
    have hmem : row ∈ db.segments := (List.mem_filter.mp hrow).1
    refine ⟨row, hmem, ?_, ?_⟩ <;> {
      cases hmk
      rfl
    }

/-- C10: in the multi-query listing (root level as well as a resolved
segment) every returned item corresponds to a real segment row, and a
child id with no segment row is silently dropped from the item loop
rather than listed or turned into an error. -/
theorem C10_dangling_children_omitted (db : DB) :
    (∀ segments items sid,
      get_children_multi_query db segments = ChildrenRes.ok items sid →
        ∀ it ∈ items, ∃ s ∈ db.segments, s.id = it.id ∧ s.name = it.name)
    ∧ ∀ cid rest, (∀ s ∈ db.segments, s.id ≠ cid) →
        list_items db (cid :: rest) = list_items db rest := by
  constructor
  · intro segments items sid hok
    have hitems : ∃ ids, items = list_items db ids := by
      unfold get_children_multi_query at hok
      split at hok
      · cases hok; exact ⟨_, rfl⟩
      · split at hok
        · cases hok
        · split at hok
          · cases hok
          · cases hok; exact ⟨_, rfl⟩
    obtain ⟨ids, hids⟩ := hitems
    rw [hids]
    exact list_items_sound db ids
  · intro cid rest hno
    have hfind : db.segments.find? (fun s => s.id == cid) = none := by
      rw [List.find?_eq_none]
      intro s hsmem
      simpa using hno s hsmem
    simp [list_items, List.filterMap_cons, head?_filter_eq_find?, hfind]

/-- Witness for C10 on the scenario fixture: a dangling id is dropped from
the item loop without error. -/
theorem C10_dangling_children_omitted_witness :
    list_items dbScenario ["ghost", "s1"] = list_items dbScenario ["s1"] :=
  (C10_dangling_children_omitted dbScenario).2 "ghost" ["s1"] (by decide)

/-! ### Codec round-trip lemmas for C3 -/

/-- `Char.ofNat` then `Char.toNat` is the identity below the surrogate
range. -/
theorem toNat_char_ofNat (n : Nat) (h : n < 55296) :
    (Char.ofNat n).toNat = n := by
  rw [Char.ofNat, dif_pos (Or.inl (by omega : n < 55296))]
  rfl

/-- Base64 alphabet characters are ASCII. -/
theorem b64char_lt (v : Nat) : b64char v < 128 := by
  unfold b64char
  split_ifs <;> omega

/-- No base64 alphabet character is the padding character 61 (`'='`). -/
theorem b64char_ne_padding (v : Nat) : b64char v ≠ 61 := by
  unfold b64char
  split_ifs <;> omega

/-- Decoding a base64 alphabet character recovers its sextet. -/
theorem b64val_b64char : ∀ v : Nat, v < 64 → b64val (b64char v) = some v := by
  decide

/-- Decoding a hex digit character recovers its value. -/
theorem hexDigitVal_hexDigitChar :
    ∀ v : Nat, v < 16 → hexDigitVal (hexDigitChar v) = some v := by
  decide

/-- Hex digit characters are ASCII. -/
theorem hexDigitChar_lt : ∀ v : Nat, v < 16 → hexDigitChar v < 128 := by
  decide

/-- Every character code produced by `b64encode` is ASCII. -/
theorem b64encode_mem_lt (bs : List Nat) : ∀ c ∈ b64encode bs, c < 128 := by
  induction bs using b64encode.induct with
  | case1 => simp [b64encode]
  | case2 b0 =>
    intro c hc
    simp [b64encode] at hc
    rcases hc with h1 | h1 | h1 | h1 <;> first
      | (subst h1; exact b64char_lt _)
      | omega
  | case3 b0 b1 =>
    intro c hc
    simp [b64encode] at hc
    rcases hc with h1 | h1 | h1 | h1 <;> first
      | (subst h1; exact b64char_lt _)
      | omega
  | case4 b0 b1 b2 rest ih =>
    intro c hc
    simp only [b64encode, List.mem_cons] at hc
    rcases hc with h1 | h1 | h1 | h1 | h1
    · subst h1; exact b64char_lt _
    · subst h1; exact b64char_lt _
    · subst h1; exact b64char_lt _
    · subst h1; exact b64char_lt _
    · exact ih c h1

/-- Every character code produced by `bytes_tohex` on bytes is ASCII. -/
theorem bytes_tohex_mem_lt (bs : List Nat) (h : ∀ b ∈ bs, b < 256) :
    ∀ c ∈ bytes_tohex bs, c < 128 := by
  induction bs with
  | nil => simp [bytes_tohex]
  | cons b rest ih =>
    intro c hc
    have hb : b < 256 := h b (by simp)
    simp only [bytes_tohex, List.mem_cons] at hc
    rcases hc with h1 | h1 | h1
    · subst h1; exact hexDigitChar_lt _ (by omega)
    · subst h1; exact hexDigitChar_lt _ (by omega)
    · exact ih (fun x hx => h x (by simp [hx])) c h1

/-- Hex decoding inverts hex encoding on byte strings. -/
theorem bytes_fromhex_bytes_tohex (bs : List Nat) (h : ∀ b ∈ bs, b < 256) :
    bytes_fromhex (bytes_tohex bs) = some bs := by
  induction bs with
  | nil => rfl
  | cons b rest ih =>
    have hb : b < 256 := h b (by simp)
    have h1 := hexDigitVal_hexDigitChar (b / 16) (by omega)
    have h2 := hexDigitVal_hexDigitChar (b % 16) (by omega)
    have ih2 := ih (fun x hx => h x (by simp [hx]))
    simp [bytes_tohex, bytes_fromhex, h1, h2, ih2]
    omega

/-- UTF-8 decoding is the identity on ASCII byte strings. -/
theorem utf8_decode_ascii (bs : List Nat) (h : ∀ b ∈ bs, b < 128) :
    utf8_decode bs = some bs := by
  induction bs with
  | nil => simp [utf8_decode]
  | cons b rest ih =>
    have hb : b < 128 := h b (by simp)
    have ih2 := ih (fun x hx => h x (by simp [hx]))
    rw [utf8_decode]
    rw [if_pos (by omega : b < 128), ih2]
    rfl

/-- Base64 decoding inverts base64 encoding on byte strings. -/
theorem b64decode_b64encode (bs : List Nat) (h : ∀ b ∈ bs, b < 256) :
    b64decode (b64encode bs) = some bs := by
  induction bs using b64encode.induct with
  | case1 => rfl
  | case2 b0 =>
    have hb0 : b0 < 256 := h b0 (by simp)
    have h1 := b64val_b64char (b0 / 4) (by omega)
    have h2 := b64val_b64char (b0 % 4 * 16) (by omega)
    simp [b64encode, b64decode, h1, h2]
    omega
  | case3 b0 b1 =>
    have hb0 : b0 < 256 := h b0 (by simp)
    have hb1 : b1 < 256 := h b1 (by simp)
    have h1 := b64val_b64char (b0 / 4) (by omega)
    have h2 := b64val_b64char (b0 % 4 * 16 + b1 / 16) (by omega)
    have h3 := b64val_b64char (b1 % 16 * 4) (by omega)
    simp [b64encode, b64decode, h1, h2, h3,
      b64char_ne_padding (b1 % 16 * 4)]
    omega
  | case4 b0 b1 b2 rest ih =>
    have hb0 : b0 < 256 := h b0 (by simp)
    have hb1 : b1 < 256 := h b1 (by simp)
    have hb2 : b2 < 256 := h b2 (by simp)
    have h1 := b64val_b64char (b0 / 4) (by omega)
    have h2 := b64val_b64char (b0 % 4 * 16 + b1 / 16) (by omega)
    have h3 := b64val_b64char (b1 % 16 * 4 + b2 / 64) (by omega)
    have h4 := b64val_b64char (b2 % 64) (by omega)
    have ih2 := ih (fun x hx => h x (by simp [hx]))
    simp [b64encode, b64decode, h1, h2, h3, h4,
      b64char_ne_padding (b1 % 16 * 4 + b2 / 64),
      b64char_ne_padding (b2 % 64), ih2]
    refine ⟨?_, ?_, ?_⟩ <;> omega

/-- C3: for every byte sequence — empty and non-UTF8-printable included —
encoding it as base64 text and storing that text hex-encoded behind the
`\x` prefix, then running the materializer's binary decode (strip `\x`,
hex-decode, read the bytes as UTF-8 base64 text, base64-decode, in that
order) reproduces the bytes exactly. -/
theorem C3_binary_roundtrip (bytes : List Nat) (h : ∀ b ∈ bytes, b < 256) :
    decode_binary_value (encode_binary_for_storage bytes) =
      BinaryResponse.decoded bytes := by
  have hhexlt : ∀ c ∈ bytes_tohex (b64encode bytes), c < 128 :=
    bytes_tohex_mem_lt (b64encode bytes)
      (fun c hc => by have := b64encode_mem_lt bytes c hc; omega)
  have hmap : ((bytes_tohex (b64encode bytes)).map Char.ofNat).map Char.toNat
      = bytes_tohex (b64encode bytes) := by
    rw [List.map_map]
    rw [List.map_congr_left (g := id), List.map_id]
    intro c hc
    exact toNat_char_ofNat c (by have := hhexlt c hc; omega)
  have hfromhex := bytes_fromhex_bytes_tohex (b64encode bytes)
    (fun c hc => by have := b64encode_mem_lt bytes c hc; omega)
  have hutf8 := utf8_decode_ascii (b64encode bytes) (b64encode_mem_lt bytes)
  have hb64 := b64decode_b64encode bytes h
  show decode_binary_value
    (String.mk ('\\' :: 'x' :: (bytes_tohex (b64encode bytes)).map Char.ofNat))
      = BinaryResponse.decoded bytes
  unfold decode_binary_value
  simp only [hmap, hfromhex, hutf8, hb64]

/-- Witness for C3: the empty byte sequence and a sequence with
non-UTF8-printable bytes both survive the round trip. -/
theorem C3_binary_roundtrip_witness :
    decode_binary_value (encode_binary_for_storage []) =
      BinaryResponse.decoded []
    ∧ decode_binary_value (encode_binary_for_storage [0, 255, 10]) =
      BinaryResponse.decoded [0, 255, 10] :=
  ⟨C3_binary_roundtrip [] (by decide),
   C3_binary_roundtrip [0, 255, 10] (by decide)⟩

/-! ### Bridging lemmas between the two strategies (for C1) -/

/-- A non-empty string has `isEmpty = false`. -/
theorem isEmpty_false_of_ne (s : String) (h : s ≠ "") : s.isEmpty = false := by
  cases he : s.isEmpty
  · rfl
  · exact absurd ((String.isEmpty_iff s).mp he) h

/-- On a non-empty path the outer emptiness check of `resolve_path_to_id`
is passed. -/
theorem resolve_path_cons (db : DB) (n : String) (rest : List String) :
    resolve_path_to_id db (n :: rest) = resolve_go db none (n :: rest) := by
  simp [resolve_path_to_id]

/-- Any id produced by the resolver walk is the starting node or carries a
segment row. -/
theorem resolve_go_mem (db : DB) (names : List String) :
    ∀ cur cid, resolve_go db cur names = some cid →
      cur = some cid ∨ ∃ s ∈ db.segments, s.id = cid := by
  induction names with
  | nil =>
    intro cur cid h
    exact Or.inl h
  | cons n rest ih =>
    intro cur cid h
    rw [resolve_go] at h
    rcases hfind : find_matching_child db n (get_children_ids db cur) with
      _ | c
    · rw [hfind] at h; cases h
    · rw [hfind] at h
      rcases ih (some c) cid h with hl | hr
      · right
        have hc : c = cid := by injection hl
        subst hc
        rw [find_matching_child] at hfind
        have hp := List.find?_some hfind
        rcases hhead : (db.segments.filter (fun s => s.id == c)).head? with
          _ | row
        · rw [hhead] at hp; cases hp
        · have hrowmem : row ∈ db.segments.filter (fun s => s.id == c) := by
            rcases List.head?_eq_some_iff.mp hhead with ⟨ys, hys⟩
            rw [hys]; exact List.mem_cons_self _ _
          have h1 := List.mem_filter.mp hrowmem
          exact ⟨row, h1.1, eq_of_beq h1.2⟩
      · exact Or.inr hr

/-- The spec's resolver walk from a node agrees with the source's walk. -/
theorem resolve_from_eq_go (db : DB) (names : List String) :
    ∀ cid : String, Spec.resolve_from db (some cid) names =
      (resolve_go db (some cid) names).map some := by
  induction names with
  | nil => intro cid; rfl
  | cons n rest ih =>
    intro cid
    rw [Spec.resolve_from, resolve_go]
    rw [children_of_eq_get_children_ids, ← find_matching_child_eq_spec]
    rcases hfind : find_matching_child db n (get_children_ids db (some cid))
      with _ | c
    · simp
    · simp only
      exact ih c

/-- On non-empty paths the spec's Hierarchy Resolver and the source's
`resolve_path_to_id` agree (the spec value wraps the source value). -/
theorem resolve_spec_eq (db : DB) (n : String) (rest : List String) :
    Spec.resolve db (n :: rest) =
      (resolve_path_to_id db (n :: rest)).map some := by
  rw [resolve_path_cons]
  show Spec.resolve_from db none (n :: rest) = _
  rw [Spec.resolve_from, resolve_go]
  rw [children_of_eq_get_children_ids, ← find_matching_child_eq_spec]
  rcases hfind : find_matching_child db n (get_children_ids db none) with
    _ | c
  · simp
  · simp only
    exact resolve_from_eq_go db rest c

/-- A tier updating a falsy accumulator is exactly the spec's
first-content-target scan. -/
theorem update_tier_none (db : DB) (rels : List Relation) :
    update_tier db none rels = Spec.first_content_target db rels := rfl

/-- A tier never overwrites a truthy accumulator. -/
theorem update_tier_some (db : DB) (c : String) (hc : c.isEmpty = false)
    (rels : List Relation) : update_tier db (some c) rels = some c := by
  simp [update_tier, pyFalsy, hc]

/-- Whatever the first-content-target scan returns is a content id. -/
theorem first_content_target_is_content (db : DB) (rels : List Relation)
    (c : String) (h : Spec.first_content_target db rels = some c) :
    is_content db c = true := by
  rw [Spec.first_content_target] at h
  rcases hfind : rels.find? (fun r => Spec.isContentRecord db r.segment_2)
    with _ | r
  · rw [hfind] at h; cases h
  · rw [hfind] at h
    have hp := List.find?_some hfind
    have hc : r.segment_2 = c := by injection h
    rw [← hc]
    exact hp

/-- Whatever `resolve_content_id` returns is a content id. -/
theorem resolve_content_id_is_content (db : DB) (item_id cid : String)
    (h : resolve_content_id db item_id = some cid) :
    is_content db cid = true := by
  rw [resolve_content_id] at h
  by_cases hc : is_content db item_id
  · rw [if_pos hc] at h
    have : item_id = cid := by injection h
    rw [← this]; exact hc
  · rw [if_neg hc] at h
    simp only at h
    have hkeep : ∀ (prev : Option String) (rels : List Relation),
        (∀ x, prev = some x → is_content db x = true) →
        ∀ x, update_tier db prev rels = some x → is_content db x = true := by
      intro prev rels hprev x hx
      rw [update_tier] at hx
      by_cases hf : pyFalsy prev
      · rw [if_pos hf] at hx
        rcases hfind : rels.find? (fun r => is_content db r.segment_2) with
          _ | r
        · rw [hfind] at hx; exact hprev x hx
        · rw [hfind] at hx
          have hp := List.find?_some hfind
          have : r.segment_2 = x := by injection hx
          rw [← this]; exact hp
      · rw [if_neg hf] at hx
        exact hprev x hx
    refine hkeep _ _ (hkeep _ _ ?_) cid h
    intro x hx
    rcases hhead : ((db.relations.filter (fun r => r.segment_1 == item_id)).filter
        (fun r => r.type == 2)).head? with _ | rel
    · simp only [hhead] at hx
      exact Option.noConfusion hx
    · simp only [hhead] at hx
      by_cases hrc : is_content db rel.segment_2
      · rw [if_pos hrc] at hx
        have : rel.segment_2 = x := by injection hx
        rw [← this]; exact hrc
      · rw [if_neg hrc] at hx; cases hx

/-- A content id is a non-empty string in a well-formed fixture. -/
theorem is_content_ne_empty (db : DB)
    (hwf : ∀ c ∈ db.contents, c.id ≠ "") (c : String)
    (h : is_content db c = true) : c.isEmpty = false := by
  rw [is_content, List.any_eq_true] at h
  obtain ⟨row, hmem, hbeq⟩ := h
  have : row.id = c := eq_of_beq hbeq
  exact isEmpty_false_of_ne c (by rw [← this]; exact hwf row hmem)

/-- The content-table fetch of a known content id returns its first row. -/
theorem is_content_find? (db : DB) (c : String)
    (h : is_content db c = true) :
    ∃ row, db.contents.find? (fun x => x.id == c) = some row := by
  rw [is_content, List.any_eq_true] at h
  obtain ⟨row, hmem, hbeq⟩ := h
  have : (db.contents.find? (fun x => x.id == c)).isSome :=
    List.find?_isSome.mpr ⟨row, hmem, hbeq⟩
  exact Option.isSome_iff_exists.mp this

/-- Under well-formedness the spec's Content Resolver and the source's
tiered search agree. -/
theorem resolve_content_spec_eq (db : DB)
    (hwf : ∀ c ∈ db.contents, c.id ≠ "") (node : String) :
    Spec.resolve_content db node = resolve_content_id db node := by
  simp only [Spec.resolve_content, resolve_content_id,
    isContentRecord_eq_is_content]
  by_cases hc : is_content db node
  · rw [if_pos hc, if_pos hc]
  · rw [if_neg hc, if_neg hc]
    rcases h2 : ((db.relations.filter (fun r => r.segment_1 == node)).filter
        (fun r => r.type == 2)).head? with _ | rel
    · simp only [h2]
      rw [update_tier_none]
      rcases h0 : Spec.first_content_target db
          ((db.relations.filter (fun r => r.segment_1 == node)).filter
            (fun r => r.type == 0)) with _ | c0
      · simp only [h0]
        rw [update_tier_none]
      · simp only [h0]
        rw [update_tier_some db c0
          (is_content_ne_empty db hwf c0
            (first_content_target_is_content db _ c0 h0))]
    · simp only [h2]
      by_cases hrc : is_content db rel.segment_2
      · rw [if_pos hrc]
        have hne := is_content_ne_empty db hwf rel.segment_2 hrc
        rw [update_tier_some db _ hne, update_tier_some db _ hne]
      · rw [if_neg hrc]
        rw [update_tier_none]
        rcases h0 : Spec.first_content_target db
            ((db.relations.filter (fun r => r.segment_1 == node)).filter
              (fun r => r.type == 0)) with _ | c0
        · simp only [h0]
          rw [update_tier_none]
        · simp only [h0]
          rw [update_tier_some db c0
            (is_content_ne_empty db hwf c0
              (first_content_target_is_content db _ c0 h0))]

/-- C1: on every well-formed fixture and every name-token sequence the
optimized remote-procedure strategy and the multi-query fallback strategy
produce identical `items` / content payloads (transport metadata — codes,
messages, the fallback's extra `segment_id` — ignored). -/
theorem C1_strategy_equivalence (db : DB) (hwf : WellFormed db)
    (segments : List String) :
    (get_children_pg_function db segments).itemsPayload =
      (get_children_multi_query db segments).itemsPayload
    ∧ (get_content_pg_function db segments).payload =
      (get_content_multi_query db segments).payload := by
  obtain ⟨hwfs, hwfc⟩ := hwf
  cases segments with
  | nil =>
    constructor
    · rw [get_children_pg_function, Spec.get_segment_children_rpc]
      rw [show Spec.resolve db [] = some none from rfl]
      simp only
      rw [spec_listing_eq_list_items]
      rw [get_children_multi_query]
      simp [ChildrenRes.itemsPayload]
    · rw [get_content_pg_function, Spec.get_content_by_path_rpc]
      rw [show Spec.resolve db [] = some none from rfl]
      simp only
      rw [get_content_multi_query]
      simp [resolve_path_to_id, ContentRes.payload]
  | cons n rest =>
    have hres_eq := resolve_spec_eq db n rest
    rcases hgo : resolve_path_to_id db (n :: rest) with _ | item_id
    · rw [hgo] at hres_eq
      simp only [Option.map] at hres_eq
      constructor
      · rw [get_children_pg_function, Spec.get_segment_children_rpc, hres_eq]
        rw [get_children_multi_query]
        simp [hgo, ChildrenRes.itemsPayload]
      · rw [get_content_pg_function, Spec.get_content_by_path_rpc, hres_eq]
        rw [get_content_multi_query]
        simp [hgo, ContentRes.payload]
    · have hmem : ∃ s ∈ db.segments, s.id = item_id := by
        have hgo2 : resolve_go db none (n :: rest) = some item_id := by
          rw [← resolve_path_cons]; exact hgo
        rcases resolve_go_mem db (n :: rest) none item_id hgo2 with h | h
        · cases h
        · exact h
      have hine : item_id.isEmpty = false := by
        obtain ⟨s, hs, hid⟩ := hmem
        exact isEmpty_false_of_ne _ (by rw [← hid]; exact hwfs s hs)
      rw [hgo] at hres_eq
      simp only [Option.map] at hres_eq
      constructor
      · rw [get_children_pg_function, Spec.get_segment_children_rpc, hres_eq]
        simp only
        rw [spec_listing_eq_list_items]
        rw [get_children_multi_query]
        simp [hgo, hine, ChildrenRes.itemsPayload]
      · rw [get_content_pg_function, Spec.get_content_by_path_rpc, hres_eq]
        simp only
        rw [resolve_content_spec_eq db hwfc item_id]
        rcases hcid : resolve_content_id db item_id with _ | cid
        · simp only [hcid]
          rw [get_content_multi_query]
          simp [hgo, hine, hcid, pyFalsy, ContentRes.payload]
        · have hcc := resolve_content_id_is_content db item_id cid hcid
          have hcne := is_content_ne_empty db hwfc cid hcc
          obtain ⟨row, hrow⟩ := is_content_find? db cid hcc
          simp only [hcid]
          rw [hrow]
          rw [get_content_multi_query]
          simp [hgo, hine, hcid, pyFalsy, hcne, head?_filter_eq_find?, hrow]

/-- Witness for C1 on the spec scenario fixture (well-formed), over the
empty path, the two scenario paths, and a non-existing path. -/
theorem C1_strategy_equivalence_witness :
    (get_children_pg_function dbScenario ["docs"]).itemsPayload =
      (get_children_multi_query dbScenario ["docs"]).itemsPayload
    ∧ (get_content_pg_function dbScenario ["docs", "guide"]).payload =
      (get_content_multi_query dbScenario ["docs", "guide"]).payload
    ∧ (get_children_pg_function dbScenario []).itemsPayload =
      (get_children_multi_query dbScenario []).itemsPayload
    ∧ (get_content_pg_function dbScenario ["missing"]).payload =
      (get_content_multi_query dbScenario ["missing"]).payload :=
  ⟨(C1_strategy_equivalence dbScenario (by decide) ["docs"]).1,
   (C1_strategy_equivalence dbScenario (by decide) ["docs", "guide"]).2,
   (C1_strategy_equivalence dbScenario (by decide) []).1,
   (C1_strategy_equivalence dbScenario (by decide) ["missing"]).2⟩

/-! ### Lemmas for C9 -/

/-- A child satisfying the matching predicate for `name` carries `name`
as its display name. -/
theorem child_matches_rowName (db : DB) (name cid : String)
    (h : (match (db.segments.filter (fun s => s.id == cid)).head? with
      | some row => row.name == name
      | none => false) = true) : rowName db cid = some name := by
  rw [rowName]
  rcases hhead : (db.segments.filter (fun s => s.id == cid)).head? with
    _ | row
  · rw [hhead] at h; cases h
  · rw [hhead] at h
    rw [hhead]
    simp only [Option.map]
    rw [eq_of_beq h]

/-- A successful child match yields an id carrying a segment row. -/
theorem find_matching_child_mem (db : DB) (name : String) (l : List String)
    (cid : String) (h : find_matching_child db name l = some cid) :
    ∃ s ∈ db.segments, s.id = cid := by
  rw [find_matching_child] at h
  have hp := List.find?_some h
  rcases hhead : (db.segments.filter (fun s => s.id == cid)).head? with
    _ | row
  · rw [hhead] at hp; cases hp
  · have hrowmem : row ∈ db.segments.filter (fun s => s.id == cid) := by
      rcases List.head?_eq_some_iff.mp hhead with ⟨ys, hys⟩
      rw [hys]; exact List.mem_cons_self _ _
    have h1 := List.mem_filter.mp hrowmem
    exact ⟨row, h1.1, eq_of_beq h1.2⟩

/-- When at most one listed child carries any given display name, the
first-match scan is invariant under permuting the list. -/
theorem find_matching_child_perm (db : DB) (name : String)
    (l1 l2 : List String) (hperm : l1.Perm l2)
    (huniq : ∀ x ∈ l1, ∀ y ∈ l1,
      rowName db x ≠ none → rowName db x = rowName db y → x = y) :
    find_matching_child db name l1 = find_matching_child db name l2 := by
  rw [find_matching_child, find_matching_child]
  rcases hfind : l1.find? (fun cid =>
      match (db.segments.filter (fun s => s.id == cid)).head? with
      | some row => row.name == name
      | none => false) with _ | x
  · have hnone := List.find?_eq_none.mp hfind
    symm
    rw [List.find?_eq_none]
    intro y hy
    exact hnone y (hperm.mem_iff.mpr hy)
  · have hx_mem := List.mem_of_find?_eq_some hfind
    have hx_p := List.find?_some hfind
    have hsome : (l2.find? (fun cid =>
        match (db.segments.filter (fun s => s.id == cid)).head? with
        | some row => row.name == name
        | none => false)).isSome :=
      List.find?_isSome.mpr ⟨x, hperm.mem_iff.mp hx_mem, hx_p⟩
    rcases hfind2 : l2.find? (fun cid =>
        match (db.segments.filter (fun s => s.id == cid)).head? with
        | some row => row.name == name
        | none => false) with _ | y
    · rw [hfind2] at hsome; cases hsome
    · have hy_mem : y ∈ l1 := hperm.mem_iff.mpr
        (List.mem_of_find?_eq_some hfind2)
      have hy_p := List.find?_some hfind2
      have hxname := child_matches_rowName db name x hx_p
      have hyname := child_matches_rowName db name y hy_p
      have hxy : x = y := huniq x hx_mem y hy_mem
        (by rw [hxname]; exact Option.noConfusion)
        (by rw [hxname, hyname])
      rw [hxy]

/-- The resolver walk is invariant under the enumeration orders imposed on
the child sets, as long as sibling names are unique. -/
theorem resolve_go_ordered_eq (db : DB)
    (r1 r2 : Option String → List String → List String)
    (h1 : ∀ p l, (r1 p l).Perm l) (h2 : ∀ p l, (r2 p l).Perm l)
    (huniq : sibling_names_unique db) (names : List String) :
    ∀ current, (current = none ∨ ∃ s ∈ db.segments, current = some s.id) →
      resolve_go_ordered db r1 current names =
        resolve_go_ordered db r2 current names := by
  induction names with
  | nil => intro current _; rfl
  | cons n rest ih =>
    intro current hcur
    have huat : unique_at db current := by
      rcases hcur with h | ⟨s, hs, h⟩
      · rw [h]; exact huniq.1
      · rw [h]; exact huniq.2 s hs
    have huniq1 : ∀ x ∈ r1 current (get_children_ids db current),
        ∀ y ∈ r1 current (get_children_ids db current),
        rowName db x ≠ none → rowName db x = rowName db y → x = y :=
      fun x hx y hy =>
        huat x ((h1 current _).mem_iff.mp hx) y ((h1 current _).mem_iff.mp hy)
    have huniq2 : ∀ x ∈ r2 current (get_children_ids db current),
        ∀ y ∈ r2 current (get_children_ids db current),
        rowName db x ≠ none → rowName db x = rowName db y → x = y :=
      fun x hx y hy =>
        huat x ((h2 current _).mem_iff.mp hx) y ((h2 current _).mem_iff.mp hy)
    have e1 := find_matching_child_perm db n _ _ (h1 current
      (get_children_ids db current)) huniq1
    have e2 := find_matching_child_perm db n _ _ (h2 current
      (get_children_ids db current)) huniq2
    rw [resolve_go_ordered, resolve_go_ordered, e1, e2]
    rcases hfind : find_matching_child db n (get_children_ids db current)
      with _ | cid
    · rfl
    · simp only
      exact ih (some cid)
        (Or.inr (by
          obtain ⟨s, hs, hid⟩ := find_matching_child_mem db n _ cid hfind
          exact ⟨s, hs, by rw [hid]⟩))

/-- The ordered walk with the identity order is the source's walk. -/
theorem resolve_go_ordered_id (db : DB) (names : List String) :
    ∀ current, resolve_go_ordered db (fun _ l => l) current names =
      resolve_go db current names := by
  induction names with
  | nil => intro current; rfl
  | cons n rest ih =>
    intro current
    rw [resolve_go_ordered, resolve_go]
    rcases hfind : find_matching_child db n (get_children_ids db current)
      with _ | c
    · simp [hfind]
    · simp only [hfind]
      exact ih (some c)

/-- C9: under the spec's sibling-name-uniqueness invariant, resolving the
same path against the same fixture yields the same node id and the same
content id whatever enumeration orders the two runs' child-set iterations
impose — the source resolver being the ordered walk with the identity
order. -/
theorem C9_resolution_determinism (db : DB)
    (r1 r2 : Option String → List String → List String)
    (h1 : ∀ p l, (r1 p l).Perm l) (h2 : ∀ p l, (r2 p l).Perm l)
    (huniq : sibling_names_unique db) (segments : List String) :
    resolve_path_ordered db r1 segments = resolve_path_ordered db r2 segments
    ∧ (resolve_path_ordered db r1 segments).bind (resolve_content_id db) =
      (resolve_path_ordered db r2 segments).bind (resolve_content_id db)
    ∧ resolve_path_ordered db (fun _ l => l) segments =
      resolve_path_to_id db segments := by
  have hmain : resolve_path_ordered db r1 segments =
      resolve_path_ordered db r2 segments := by
    rw [resolve_path_ordered, resolve_path_ordered]
    by_cases hemp : segments.isEmpty
    · rw [if_pos hemp, if_pos hemp]
    · rw [if_neg hemp, if_neg hemp]
      exact resolve_go_ordered_eq db r1 r2 h1 h2 huniq segments none
        (Or.inl rfl)
  refine ⟨hmain, by rw [hmain], ?_⟩
  rw [resolve_path_ordered, resolve_path_to_id]
  by_cases hemp : segments.isEmpty
  · rw [if_pos hemp, if_pos hemp]
  · rw [if_neg hemp, if_neg hemp]
    exact resolve_go_ordered_id db segments none

/-- Witness for C9 on the scenario fixture: the table order and the
reversed order resolve `/docs/guide` to the same node and content id. -/
theorem C9_resolution_determinism_witness :
    resolve_path_ordered dbScenario (fun _ l => l) ["docs", "guide"] =
      resolve_path_ordered dbScenario (fun _ l => l.reverse)
        ["docs", "guide"]
    ∧ (resolve_path_ordered dbScenario (fun _ l => l) ["docs", "guide"]).bind
        (resolve_content_id dbScenario) =
      (resolve_path_ordered dbScenario (fun _ l => l.reverse)
        ["docs", "guide"]).bind (resolve_content_id dbScenario) :=
  ⟨(C9_resolution_determinism dbScenario (fun _ l => l)
      (fun _ l => l.reverse) (fun _ l => List.Perm.refl l)
      (fun _ l => l.reverse_perm) (by decide) ["docs", "guide"]).1,
   (C9_resolution_determinism dbScenario (fun _ l => l)
      (fun _ l => l.reverse) (fun _ l => List.Perm.refl l)
      (fun _ l => l.reverse_perm) (by decide) ["docs", "guide"]).2.1⟩

end SupabaseMemo
